import Mathlib

/-!
Verification development for `lingpycldf/lexstat.py`: a shallow embedding of
the script's data-model bridge (CLDF wordlist → LingPy flat table), its
token cleaning and cell sanitization, the bad-token diagnostic, the cognate
table builder, and the `__main__` pipeline orchestration, together with
theorems settling the specification claims.

Conventions of the embedding:
* Python strings are Lean `String`s; `str.replace` with a one-character
  needle is modelled character-by-character (`pyReplaceChar`).
* Python's substring test `x in s` on strings is `pyInStr` (contiguous
  sublist of the character lists; the empty string is a substring of every
  string, as in Python).
* The LingPy wordlist dict `{0: row0, 1: row1, ...}` built by successive
  `lpwl[len(lpwl)] = row` assignments is a `List` of rows in key order.
* Heterogeneous Python cells (int / str / list-of-str) are the `Cell` type;
  `lingpy_write`'s `type(entry) == str` test picks out the `Cell.str` case.
* Fallible Python code is `Except PyErr`; `sys.exit(n)` raises
  `SystemExit n`, an unresolved global name raises `NameError`.
-/

namespace LingpyCldf

/-- One heterogeneous cell of a LingPy row: Python int, str, or list of str. -/
inductive Cell where
  | int (n : Nat)
  | str (s : String)
  | strList (l : List String)
deriving DecidableEq, Repr

/-- A form row of the CLDF primary table, with the four columns `to_lingpy`
resolves by role: id, languageReference, parameterReference, soundSequence.
An absent/empty token field is the empty list (both are falsy in Python). -/
structure Form where
  id : String
  doculect : String
  concept : String
  tokens : List String
deriving DecidableEq, Repr

/-- Python `s.replace(c, r)` for a single-character needle `c`:
every occurrence of `c` becomes `r`. -/
def pyReplaceChar (c : Char) (r : List Char) (s : List Char) : List Char :=
  (s.map (fun x => if x = c then r else [x])).flatten

/-- The sanitization of `lingpy_write`:
`entry.replace("\t", replace_tab).replace("\n", replace_newline)`. -/
def pySanitize (rt rn : String) (s : String) : String :=
  String.mk (pyReplaceChar '\n' rn.toList (pyReplaceChar '\t' rt.toList s.toList))

/-- `lingpy_write` sanitizes exactly the `str`-typed entries
(`if type(entry) == str`); ints and lists pass through unchanged. -/
def sanitizeCell (rt rn : String) : Cell → Cell
  | .str s => .str (pySanitize rt rn s)
  | c => c

/-- Python's `x in s` for strings: `x` is a contiguous substring of `s`
(true for the empty string). -/
def pyInStr (x s : String) : Bool := decide (x.toList <:+: s.toList)

/-- The token cleaning of `to_lingpy`, line 97:
`[x for x in row[tokens] if x not in "(,_.-;)"]`. -/
def cleanTokens (toks : List String) : List String :=
  toks.filter (fun x => ¬ pyInStr x "(,_.-;)")

/-- `lingpy_write(entries)`: sanitize each entry and store the row under the
next integer key (`lpwl[len(lpwl)] = ...`, i.e. append). -/
def lingpy_write (rt rn : String) (lpwl : List (List Cell)) (entries : List Cell) :
    List (List Cell) :=
  lpwl ++ [entries.map (sanitizeCell rt rn)]

/-- The fixed header row written before any data row. -/
def headerEntries : List Cell :=
  [.str "ID", .str "REFERENCE", .str "DOCULECT", .str "CONCEPT", .str "IPA", .str "TOKENS"]

/-- The data row built for the form at 0-based table index `r`
(`lingpy_row` of the source, lines 96–98): ID is `r+1`, IPA is
`''.join(row[tokens])` of the original tokens, TOKENS is the cleaned list. -/
def lingpyRow (r : Nat) (f : Form) : List Cell :=
  [.int (r + 1), .str f.id, .str f.doculect, .str f.concept,
   .str (String.join f.tokens), .strList (cleanTokens f.tokens)]

/-- `to_lingpy(wordlist, replace_tab, replace_newline)`: write the header,
then loop `for r, row in enumerate(...)`, skipping (`continue`) any form
whose token field is falsy, writing `lingpy_row` otherwise. -/
def to_lingpy (rt rn : String) (wl : List Form) : List (List Cell) :=
  wl.enum.foldl
    (fun lpwl rf =>
      if rf.2.tokens = [] then lpwl
      else lingpy_write rt rn lpwl (lingpyRow rf.1 rf.2))
    (lingpy_write rt rn [] headerEntries)

/-- The data rows of the flat table (everything after the header). -/
def dataRows (t : List (List Cell)) : List (List Cell) := t.drop 1

/-- The ID (sequential position) cell of a flat row. -/
def rowID (row : List Cell) : Nat :=
  match row with
  | .int n :: _ => n
  | _ => 0

/-- The sequence of position fields of the data rows of a flat table. -/
def positions (t : List (List Cell)) : List Nat := (dataRows t).map rowID

/-- The forms that are emitted into the flat table: non-empty token field. -/
def emitted (wl : List Form) : List Form := wl.filter (fun f => f.tokens ≠ [])

/-- Python exceptions this script can surface. -/
inductive PyErr where
  | nameError (n : String)
  | systemExit (code : Nat)
  | valueError
  | raised
deriving DecidableEq, Repr

/-- A row as LingPy's `iter_rows('tokens', "reference")` yields it to
`find_bad_tokens`: the (cleaned) token sequence and the form reference. -/
structure WRow where
  tokens : List String
  ref : String
deriving DecidableEq, Repr

/-- Python-dict state of `find_bad_tokens`, in insertion order. -/
abbrev BadDict := List (String × List String)

/-- `bad_tokens.setdefault(token, []).append(form_id)`: extend the entry of
`k` if present, else insert `(k, [v])` at the end. -/
def dictAppend (d : BadDict) (k : String) (v : String) : BadDict :=
  if (d.lookup k).isSome then
    d.map (fun p => if p.1 = k then (p.1, p.2 ++ [v]) else p)
  else d ++ [(k, [v])]

/-- The inner loop of `find_bad_tokens`: `for token, cls in zip(segments,
classes): if cls == "0": bad_tokens.setdefault(token, []).append(form_id)`. -/
def fbtRow (d : BadDict) (toks classes : List String) (ref : String) : BadDict :=
  (toks.zip classes).foldl
    (fun d tc => if tc.2 = "0" then dictAppend d tc.1 ref else d) d

/-- One iteration of the outer loop of `find_bad_tokens`: call the external
classifier on the row's segments (a raise propagates) and fold the row's
(token, class) pairs into the report. -/
def fbtStep (t2c : List String → Except PyErr (List String))
    (acc : Except PyErr BadDict) (row : WRow) : Except PyErr BadDict :=
  match acc with
  | .error e => .error e
  | .ok d =>
    match t2c row.tokens with
    | .error e => .error e
    | .ok classes => .ok (fbtRow d row.tokens classes row.ref)

/-- `find_bad_tokens(wordlist)`: for each row, call the external classifier
`lingpy.tokens2class(segments, 'dolgo')` (which may raise) and record every
token classified `"0"` against the form's reference.  A raise on any row
propagates out of the function. -/
def find_bad_tokens (t2c : List String → Except PyErr (List String))
    (rows : List WRow) : Except PyErr BadDict :=
  rows.foldl (fbtStep t2c) (.ok [])

/-- The ambient state of the module-level `lexstat` variable used by
`cognatetable_from_lingpy`: the LexStat/Alignments object's rows, each a
total map from (header-resolved) column name to value. -/
structure LexStatState where
  rows : List (String → Cell)

/-- One output row of the CLDF cognate table. -/
structure CognateRow where
  id : Nat
  form_id : Cell
  cognateset_id : Cell
  alignment : Cell
  source : List String

/-- `cognatetable_from_lingpy(lingpy, column="cogid")`.  The body never
reads the `lingpy` parameter: it enumerates `lexstat._data.values()` and
`lexstat.header`, i.e. the ambient module-level `lexstat` variable, which
exists only when `__main__` has bound it (`none` means unbound, so the
lookup raises `NameError`). -/
def cognatetable_from_lingpy (globalLexstat : Option LexStatState)
    (lingpy : LexStatState) (column : String) : Except PyErr (List CognateRow) :=
  match globalLexstat with
  | none => .error (.nameError "lexstat")
  | some lexstat =>
      .ok (lexstat.rows.enum.map (fun rr =>
        { id := rr.1
          form_id := rr.2 "reference"
          cognateset_id := rr.2 column
          alignment := rr.2 "alignment"
          source := ["LexStat"] }))

/-- The names bound at module level in `lexstat.py` (its imports and its
own top-level defs).  `sys` is not among them: the script never imports
`sys`, though line 183 evaluates `sys.exit(2)`. -/
def moduleBindings : List String :=
  ["json", "argparse", "pycldf", "Path", "Dataset", "_get_dataset",
   "lingpy", "Alignments", "LexStat",
   "get_dataset", "to_lingpy", "cognatetable_from_lingpy", "find_bad_tokens"]

/-- The parsed command-line arguments of `__main__` that the pipeline
reads.  `threshold` keeps `none` for the untouched `default=False`. -/
structure Args where
  method : String
  clusterMethod : String
  threshold : Option ℚ
  overwrite : Bool
  badTokensLog : Bool
deriving DecidableEq, Repr

/-- One call into the external LingPy engine, in the order `__main__`
issues them. -/
inductive EngineCall where
  | lexstatInit
  | getScorer (preprocessing : Bool) (runs : Nat) (ratio : Nat × Nat) (vscale : ℚ)
  | cluster (method : String) (clusterMethod : String) (ref : String) (threshold : Option ℚ)
  | alignCall (model : String)
  | outputTsv (filename : String)
  | writeCognateTable
deriving DecidableEq, Repr

/-- Is this engine call a scorer-training invocation? -/
def isGetScorer : EngineCall → Bool
  | .getScorer _ _ _ _ => true
  | _ => false

/-- Is this engine call a clustering invocation? -/
def isCluster : EngineCall → Bool
  | .cluster _ _ _ _ => true
  | _ => false

/-- The rows the LexStat object hands to `find_bad_tokens` in `__main__`:
one per emitted form, `tokens` = the (unsanitized, list-typed) TOKENS
column, `reference` = the sanitized REFERENCE column of the flat table. -/
def lexstatRows (wl : List Form) : List WRow :=
  (emitted wl).map (fun f => ⟨cleanTokens f.tokens, pySanitize " " " " f.id⟩)

/-- The `__main__` pipeline after argument parsing and dataset loading,
as a trace of engine calls plus an outcome.
* `add_component("CognateTable")` raises `ValueError` when the table
  exists; without `--overwrite` the handler prints and runs `sys.exit(2)`
  — but `sys` is unbound at module level, so that line itself raises.
* `to_lingpy` is called with its default replacements; `LexStat(...)` is
  constructed; if `--bad-tokens-log` was given, `find_bad_tokens` runs and
  any raise from the classifier propagates (there is no try/except).
* `get_scorer(preprocessing=False, runs=10000, ratio=(2,1), vscale=1.0)`
  runs only when the method is not `"sca"`; then `cluster`, `align`,
  `output`, and the cognate-table write. -/
def mainRun (args : Args) (hasCognateTable : Bool) (wl : List Form)
    (t2c : List String → Except PyErr (List String)) :
    List EngineCall × Except PyErr Unit :=
  if hasCognateTable && !args.overwrite then
    ([], .error (if "sys" ∈ moduleBindings then .systemExit 2 else .nameError "sys"))
  else
    match (if args.badTokensLog then (find_bad_tokens t2c (lexstatRows wl)).map (fun _ => ())
           else .ok ()) with
    | .error e => ([.lexstatInit], .error e)
    | .ok _ =>
        ([.lexstatInit]
          ++ (if args.method ≠ "sca" then [.getScorer false 10000 (2, 1) 1] else [])
          ++ [.cluster args.method args.clusterMethod "cogid" args.threshold,
              .alignCall "sca", .outputTsv "with_lexstat_and_alignment",
              .writeCognateTable],
         .ok ())

/-- The process exit code a `__main__` outcome produces: 0 on success, the
`SystemExit` code when `sys.exit(n)` was reached, 1 for any uncaught
exception (Python prints a traceback and exits 1). -/
def pyExitCode : Except PyErr Unit → Nat
  | .ok _ => 0
  | .error (.systemExit n) => n
  | .error _ => 1

/-- Specification-side: the (token, form-reference) pairs of a wordlist in
scan order — every token occurrence of every row, row by row. -/
def pairsOf (rows : List WRow) : List (String × String) :=
  rows.flatMap (fun row => row.tokens.map (fun tok => (tok, row.ref)))

/-- Specification-side: the form references recorded for token `t`, one per
occurrence of `t` whose class is `"0"`, in scan order. -/
def tokenOccurrences (classify : String → String) (rows : List WRow) (t : String) :
    List String :=
  (pairsOf rows).filterMap
    (fun p => if p.1 = t ∧ classify p.1 = "0" then some p.2 else none)

/-- The REFERENCE cell of a flat row. -/
def refCell (row : List Cell) : Option Cell := row[1]?

/-- The IPA (concatenated phonetic string) cell of a flat row. -/
def ipaCell (row : List Cell) : Option Cell := row[4]?

/-- The TOKENS (cleaned token sequence) cell of a flat row. -/
def toksCell (row : List Cell) : Option Cell := row[5]?

/-- The emitted forms together with their 0-based index in the full
primary table (the `r` of `enumerate`). -/
def emittedRows (wl : List Form) : List (Nat × Form) :=
  wl.enum.filterMap (fun rf => if rf.2.tokens = [] then none else some rf)

/-! ### Structural lemmas about `to_lingpy` -/

lemma foldl_lingpy_write (rt rn : String) :
    ∀ (l : List (Nat × Form)) (acc : List (List Cell)),
      l.foldl
        (fun lpwl rf =>
          if rf.2.tokens = [] then lpwl
          else lingpy_write rt rn lpwl (lingpyRow rf.1 rf.2)) acc
      = acc ++ l.filterMap
          (fun rf =>
            if rf.2.tokens = [] then none
            else some ((lingpyRow rf.1 rf.2).map (sanitizeCell rt rn))) := by
  intro l
  induction l with
  | nil => intro acc; simp
  | cons rf l ih =>
      intro acc
      rw [List.foldl_cons]
      by_cases h : rf.2.tokens = []
      · rw [if_pos h, ih]
        simp [List.filterMap_cons, h]
      · rw [if_neg h, ih]
        simp [List.filterMap_cons, h, lingpy_write]

lemma filterMap_ite_map {α β : Type _} (p : α → Prop) [DecidablePred p]
    (g : α → β) (l : List α) :
    l.filterMap (fun a => if p a then none else some (g a))
      = (l.filterMap (fun a => if p a then none else some a)).map g := by
  induction l with
  | nil => rfl
  | cons a l ih =>
      by_cases h : p a
      · simp [List.filterMap_cons, h, ih]
      · simp [List.filterMap_cons, h, ih]

lemma to_lingpy_eq (rt rn : String) (wl : List Form) :
    to_lingpy rt rn wl
      = headerEntries.map (sanitizeCell rt rn)
        :: (emittedRows wl).map
            (fun rf => (lingpyRow rf.1 rf.2).map (sanitizeCell rt rn)) := by
  unfold to_lingpy emittedRows
  rw [foldl_lingpy_write,
    filterMap_ite_map (fun rf : Nat × Form => rf.2.tokens = [])
      (fun rf => (lingpyRow rf.1 rf.2).map (sanitizeCell rt rn))]
  simp [lingpy_write]

lemma dataRows_to_lingpy (rt rn : String) (wl : List Form) :
    dataRows (to_lingpy rt rn wl)
      = (emittedRows wl).map
          (fun rf => (lingpyRow rf.1 rf.2).map (sanitizeCell rt rn)) := by
  rw [to_lingpy_eq]; rfl

lemma emittedRows_enumFrom_map_snd :
    ∀ (n : Nat) (wl : List Form),
      ((List.enumFrom n wl).filterMap
          (fun rf => if rf.2.tokens = [] then none else some rf)).map Prod.snd
        = emitted wl := by
  intro n wl
  induction wl generalizing n with
  | nil => simp [emitted]
  | cons f fs ih =>
      rw [List.enumFrom_cons, List.filterMap_cons]
      by_cases h : f.tokens = []
      · simp only [h, if_pos]
        rw [ih]
        simp [emitted, List.filter_cons, h]
      · simp only [h, if_neg, not_false_iff, List.map_cons, ih]
        simp [emitted, List.filter_cons, h]

lemma emittedRows_map_snd (wl : List Form) :
    (emittedRows wl).map Prod.snd = emitted wl := by
  unfold emittedRows
  rw [List.enum_eq_enumFrom]
  exact emittedRows_enumFrom_map_snd 0 wl

lemma mem_emittedRows_enumFrom_le :
    ∀ (n : Nat) (wl : List Form) (x : Nat × Form),
      x ∈ (List.enumFrom n wl).filterMap
          (fun rf => if rf.2.tokens = [] then none else some rf) → n ≤ x.1 := by
  intro n wl x hx
  obtain ⟨rf, hmem, hsome⟩ := List.mem_filterMap.mp hx
  have hrf : rf = x := by
    by_cases h : rf.2.tokens = [] <;> simp [h] at hsome
    exact hsome
  subst hrf
  obtain ⟨i, f⟩ := rf
  exact (List.mem_enumFrom hmem).1

lemma pairwise_emittedRows_enumFrom :
    ∀ (n : Nat) (wl : List Form),
      (((List.enumFrom n wl).filterMap
          (fun rf => if rf.2.tokens = [] then none else some rf)).map
        (fun rf => rf.1 + 1)).Pairwise (· < ·) := by
  intro n wl
  induction wl generalizing n with
  | nil => simp
  | cons f fs ih =>
      rw [List.enumFrom_cons, List.filterMap_cons]
      by_cases h : f.tokens = []
      · simpa [h] using ih (n + 1)
      · simp only [h, if_neg, not_false_iff, List.map_cons]
        refine List.Pairwise.cons ?_ (ih (n + 1))
        intro b hb
        obtain ⟨rf, hrf, rfl⟩ := List.mem_map.mp hb
        have := mem_emittedRows_enumFrom_le (n + 1) fs rf hrf
        omega

/-! ### Claim C1: sequential positions of emitted rows -/

/-- C1 (counterexample): the claim says skipped forms do not consume a
position and the emitted positions are a gapless consecutive sequence.
With a middle form skipped for its empty token field, `to_lingpy` emits
positions `[1, 3]` — the skipped form consumed position 2, and `[1, 3]` is
not a gapless consecutive sequence from any origin. -/
theorem to_lingpy_positions_gap :
    positions (to_lingpy " " " "
        [⟨"f1", "l", "c", ["a"]⟩, ⟨"f2", "l", "c", []⟩, ⟨"f3", "l", "c", ["b"]⟩])
      = [1, 3]
    ∧ ∀ start : Nat,
        positions (to_lingpy " " " "
            [⟨"f1", "l", "c", ["a"]⟩, ⟨"f2", "l", "c", []⟩, ⟨"f3", "l", "c", ["b"]⟩])
          ≠ List.range' start 2 := by
  constructor
  · rfl
  · intro start h
    rw [show positions (to_lingpy " " " "
        [⟨"f1", "l", "c", ["a"]⟩, ⟨"f2", "l", "c", []⟩, ⟨"f3", "l", "c", ["b"]⟩])
        = [1, 3] from rfl] at h
    simp [List.range'] at h
    omega

/-- C1 (amended): the position field of each emitted row is `1 + r` where
`r` is the form's 0-based index in the *full* primary table, so skipped
forms do consume positions; the emitted positions are strictly increasing
but not necessarily consecutive. -/
theorem to_lingpy_positions (rt rn : String) (wl : List Form) :
    positions (to_lingpy rt rn wl) = (emittedRows wl).map (fun rf => rf.1 + 1)
    ∧ (positions (to_lingpy rt rn wl)).Pairwise (· < ·) := by
  have h1 : positions (to_lingpy rt rn wl)
      = (emittedRows wl).map (fun rf => rf.1 + 1) := by
    unfold positions
    rw [dataRows_to_lingpy, List.map_map]
    congr 1
  refine ⟨h1, ?_⟩
  rw [h1]
  unfold emittedRows
  rw [List.enum_eq_enumFrom]
  exact pairwise_emittedRows_enumFrom 0 wl

/-! ### Claim C3: token cleaning -/

/-- C3 (counterexample): the claim says only the seven single-character
punctuation tokens are removed and everything else — including the empty
token and multi-character tokens — is kept.  Python's `x not in "(,_.-;)"`
is a substring test, so the empty token and the two-character token `"(,"`
are both removed although neither is one of the seven characters. -/
theorem cleanTokens_removes_non_singletons :
    cleanTokens ["", "(,"] = []
    ∧ "" ∉ ["(", ",", "_", ".", "-", ";", ")"]
    ∧ "(," ∉ ["(", ",", "_", ".", "-", ";", ")"] := by
  refine ⟨rfl, by decide, by decide⟩

/-- C3 (amended): the token cleaning of `to_lingpy` removes exactly those
tokens that are contiguous substrings of `"(,_.-;)"` (Python's `in` on
strings): every one of the seven single characters, but also the empty
token and contiguous multi-character runs such as `"(,"`; every other
token is kept. -/
theorem cleanTokens_spec (toks : List String) (x : String) :
    x ∈ cleanTokens toks ↔ x ∈ toks ∧ ¬ x.toList <:+: "(,_.-;)".toList := by
  unfold cleanTokens pyInStr
  rw [List.mem_filter]
  simp

/-! ### Claims C4 and C5: emitted rows, reference and phonetic fields -/

/-- C4 (counterexample): the claim says the reference field equals the
form's original identifier.  `lingpy_write` sanitizes every `str` cell, so
an identifier containing a tab is stored with the tab replaced. -/
theorem to_lingpy_reference_sanitized :
    (dataRows (to_lingpy " " " " [⟨"a\tb", "l", "c", ["x"]⟩])).map refCell
      = [some (.str "a b")]
    ∧ ("a b" : String) ≠ "a\tb" := by
  refine ⟨rfl, by decide⟩

/-- C4 (amended): the flat table has exactly one data row per form with a
non-empty token field, in the dataset's native order, and each emitted
row's REFERENCE field is that form's original identifier passed through
the tab/newline sanitization (hence the identifier itself whenever it
contains no tab or newline), regardless of how many earlier forms were
skipped. -/
theorem to_lingpy_reference (rt rn : String) (wl : List Form) :
    (dataRows (to_lingpy rt rn wl)).map refCell
      = (emitted wl).map (fun f => some (Cell.str (pySanitize rt rn f.id))) := by
  rw [dataRows_to_lingpy, List.map_map, ← emittedRows_map_snd, List.map_map]
  congr 1

/-- C5 (counterexample): the claim says the IPA field is the concatenation
of the original token sequence.  It is that concatenation only after
tab/newline sanitization: a token containing a tab is stored altered
(while the list-typed TOKENS cell is not sanitized). -/
theorem to_lingpy_ipa_sanitized :
    (dataRows (to_lingpy " " " " [⟨"f", "l", "c", ["a\tb"]⟩])).map ipaCell
      = [some (.str "a b")]
    ∧ String.join ["a\tb"] = "a\tb"
    ∧ ("a b" : String) ≠ "a\tb" := by
  refine ⟨rfl, rfl, by decide⟩

/-- C5 (amended): each emitted row's IPA field is the concatenation of the
form's original, uncleaned token sequence passed through the tab/newline
sanitization — token cleaning does not enter it — while the TOKENS field
of the same row is the cleaned token sequence. -/
theorem to_lingpy_ipa (rt rn : String) (wl : List Form) :
    (dataRows (to_lingpy rt rn wl)).map ipaCell
      = (emitted wl).map
          (fun f => some (Cell.str (pySanitize rt rn (String.join f.tokens))))
    ∧ (dataRows (to_lingpy rt rn wl)).map toksCell
      = (emitted wl).map (fun f => some (Cell.strList (cleanTokens f.tokens))) := by
  constructor
  · rw [dataRows_to_lingpy, List.map_map, ← emittedRows_map_snd, List.map_map]
    congr 1
  · rw [dataRows_to_lingpy, List.map_map, ← emittedRows_map_snd, List.map_map]
    congr 1

/-! ### Claim C9: sanitization in `lingpy_write` -/

/-- A string free of literal tab and newline characters. -/
def noTabNl (s : String) : Prop := '\t' ∉ s.toList ∧ '\n' ∉ s.toList

instance (s : String) : Decidable (noTabNl s) := by
  unfold noTabNl; infer_instance

lemma mem_pyReplaceChar {x c : Char} {r s : List Char}
    (hx : x ∈ pyReplaceChar c r s) : x ∈ r ∨ (x ∈ s ∧ x ≠ c) := by
  unfold pyReplaceChar at hx
  obtain ⟨l, hl, hxl⟩ := List.mem_flatten.mp hx
  obtain ⟨a, ha, rfl⟩ := List.mem_map.mp hl
  by_cases h : a = c
  · rw [if_pos h] at hxl
    exact Or.inl hxl
  · rw [if_neg h] at hxl
    rcases List.mem_singleton.mp hxl with rfl
    exact Or.inr ⟨ha, h⟩

lemma pySanitize_noTabNl {rt rn : String} (h1 : noTabNl rt) (h2 : noTabNl rn)
    (s : String) : noTabNl (pySanitize rt rn s) := by
  constructor
  · intro hmem
    rcases mem_pyReplaceChar hmem with h | ⟨h, _⟩
    · exact h2.1 h
    · rcases mem_pyReplaceChar h with h' | ⟨_, h'⟩
      · exact h1.1 h'
      · exact h' rfl
  · intro hmem
    rcases mem_pyReplaceChar hmem with h | ⟨h, hne⟩
    · exact h2.2 h
    · exact hne rfl

/-- C9: `lingpy_write` stores exactly one new row (no row is ever dropped,
and being a total function it cannot raise), keeps every field of the row
(no field dropped), rewrites each string-typed field by the tab/newline
replacement with the supplied substitutes, leaves non-string fields
untouched, and — whenever the substitutes themselves are tab/newline-free —
the stored row's string fields contain no tab or newline at all. -/
theorem lingpy_write_sanitizes (rt rn : String) (lpwl : List (List Cell))
    (entries : List Cell) (h1 : noTabNl rt) (h2 : noTabNl rn) :
    lingpy_write rt rn lpwl entries = lpwl ++ [entries.map (sanitizeCell rt rn)]
    ∧ (entries.map (sanitizeCell rt rn)).length = entries.length
    ∧ (∀ i : Nat, ∀ s : String, entries[i]? = some (.str s) →
        (entries.map (sanitizeCell rt rn))[i]? = some (.str (pySanitize rt rn s)))
    ∧ (∀ i : Nat, ∀ c : Cell, entries[i]? = some c → (∀ s, c ≠ .str s) →
        (entries.map (sanitizeCell rt rn))[i]? = some c)
    ∧ (∀ i : Nat, ∀ s : String,
        (entries.map (sanitizeCell rt rn))[i]? = some (.str s) → noTabNl s) := by
  refine ⟨rfl, List.length_map _ _, ?_, ?_, ?_⟩
  · intro i s hi
    rw [List.getElem?_map, hi]
    rfl
  · intro i c hi hc
    rw [List.getElem?_map, hi]
    cases c with
    | int n => rfl
    | str s => exact absurd rfl (hc s)
    | strList l => rfl
  · intro i s hi
    rw [List.getElem?_map] at hi
    cases he : entries[i]? with
    | none => rw [he] at hi; exact absurd hi (by simp)
    | some c =>
        rw [he] at hi
        cases c with
        | int n => exact absurd (Option.some.inj hi) (by simp [sanitizeCell])
        | str t =>
            have : pySanitize rt rn t = s := by
              have := Option.some.inj hi
              simpa [sanitizeCell] using this
            rw [← this]
            exact pySanitize_noTabNl h1 h2 t
        | strList l => exact absurd (Option.some.inj hi) (by simp [sanitizeCell])

/-- C9 (witness): the theorem at a concrete row containing a tab-bearing
string field, an int field, and a list field, with the default substitutes. -/
theorem lingpy_write_sanitizes_witness :
    noTabNl " "
    ∧ (lingpy_write " " " " [] [.str "a\tb", .int 3, .strList ["x\ny"]]
          = [] ++ [[.str "a\tb", .int 3, .strList ["x\ny"]].map (sanitizeCell " " " ")]
        ∧ ([.str "a\tb", .int 3, .strList ["x\ny"]].map (sanitizeCell " " " ")).length
            = ([.str "a\tb", .int 3, .strList ["x\ny"]] : List Cell).length
        ∧ (∀ i : Nat, ∀ s : String,
            ([.str "a\tb", .int 3, .strList ["x\ny"]] : List Cell)[i]? = some (.str s) →
            ([.str "a\tb", .int 3, .strList ["x\ny"]].map (sanitizeCell " " " "))[i]?
              = some (.str (pySanitize " " " " s)))
        ∧ (∀ i : Nat, ∀ c : Cell,
            ([.str "a\tb", .int 3, .strList ["x\ny"]] : List Cell)[i]? = some c →
            (∀ s, c ≠ .str s) →
            ([.str "a\tb", .int 3, .strList ["x\ny"]].map (sanitizeCell " " " "))[i]? = some c)
        ∧ (∀ i : Nat, ∀ s : String,
            ([.str "a\tb", .int 3, .strList ["x\ny"]].map (sanitizeCell " " " "))[i]?
              = some (.str s) → noTabNl s)) :=
  ⟨by decide,
   lingpy_write_sanitizes " " " " [] [.str "a\tb", .int 3, .strList ["x\ny"]]
     (by decide) (by decide)⟩

/-! ### Claim C2: the preflight abort path -/

/-- C2 (code bug): on a dataset that already has a CognateTable, without
`--overwrite`, the script prints its message and then evaluates
`sys.exit(2)` — but `sys` is never imported (it is not among the module's
bindings), so the line raises an uncaught `NameError`.  The external
engine is indeed never invoked (empty call trace), but the process dies
with a traceback and exit code 1, not with the claimed clean exit code 2. -/
theorem preflight_abort_raises :
    mainRun ⟨"sca", "upgma", none, false, false⟩ true [⟨"f1", "l", "c", ["a"]⟩]
        (fun s => .ok (s.map (fun _ => "K")))
      = ([], .error (.nameError "sys"))
    ∧ "sys" ∉ moduleBindings
    ∧ pyExitCode (.error (.nameError "sys")) = 1
    ∧ pyExitCode (.error (.nameError "sys")) ≠ 2 := by
  refine ⟨rfl, by decide, rfl, by decide⟩

/-! ### Claim C6: scorer training -/

lemma mainRun_ok_trace (args : Args) (hasCT : Bool) (wl : List Form)
    (t2c : List String → Except PyErr (List String))
    (h : (mainRun args hasCT wl t2c).2 = .ok ()) :
    (mainRun args hasCT wl t2c).1
      = [.lexstatInit]
        ++ (if args.method ≠ "sca" then [.getScorer false 10000 (2, 1) 1] else [])
        ++ [.cluster args.method args.clusterMethod "cogid" args.threshold,
            .alignCall "sca", .outputTsv "with_lexstat_and_alignment",
            .writeCognateTable] := by
  cases hCT : hasCT && !args.overwrite with
  | true => simp [mainRun, hCT] at h
  | false =>
      cases hd : (if args.badTokensLog
          then (find_bad_tokens t2c (lexstatRows wl)).map (fun _ => ())
          else .ok ()) with
      | error e => simp [mainRun, hCT, hd] at h
      | ok u => simp [mainRun, hCT, hd]

/-- C6: on a run that completes, scorer training is invoked exactly once —
with preprocessing disabled, 10000 permutation runs, ratio `(2, 1)` and
vowel scale `1` — and it happens before any clustering call, whenever the
method is not `"sca"`; with method `"sca"` no scorer training occurs. -/
theorem scorer_training_spec (args : Args) (hasCT : Bool) (wl : List Form)
    (t2c : List String → Except PyErr (List String))
    (h : (mainRun args hasCT wl t2c).2 = .ok ()) :
    (args.method = "sca" →
      ∀ c ∈ (mainRun args hasCT wl t2c).1, isGetScorer c = false)
    ∧ (args.method ≠ "sca" →
        ((mainRun args hasCT wl t2c).1.filter (fun c => isGetScorer c))
          = [.getScorer false 10000 (2, 1) 1]
        ∧ ∃ pre post, (mainRun args hasCT wl t2c).1
              = pre ++ .getScorer false 10000 (2, 1) 1 :: post
            ∧ (∀ c ∈ pre, isCluster c = false)
            ∧ ∃ c ∈ post, isCluster c = true) := by
  have ht := mainRun_ok_trace args hasCT wl t2c h
  constructor
  · intro hm c hc
    rw [ht] at hc
    rw [hm] at hc
    simp at hc
    rcases hc with rfl | rfl | rfl | rfl | rfl <;> rfl
  · intro hm
    rw [ht, if_pos hm]
    constructor
    · simp [List.filter_cons, isGetScorer]
    · refine ⟨[.lexstatInit],
        [.cluster args.method args.clusterMethod "cogid" args.threshold,
         .alignCall "sca", .outputTsv "with_lexstat_and_alignment",
         .writeCognateTable], rfl, ?_, ?_⟩
      · intro c hc
        rcases List.mem_singleton.mp hc with rfl
        rfl
      · exact ⟨.cluster args.method args.clusterMethod "cogid" args.threshold,
          by simp, rfl⟩

/-- C6 (witness): the theorem at method `"lexstat"` on a dataset without a
cognate table, with a trivially succeeding classifier. -/
theorem scorer_training_spec_witness :
    ((mainRun ⟨"lexstat", "upgma", none, false, false⟩ false [] (fun _ => .ok [])).2
      = .ok ())
    ∧ ((("lexstat" : String) = "sca" →
        ∀ c ∈ (mainRun ⟨"lexstat", "upgma", none, false, false⟩ false []
            (fun _ => .ok [])).1, isGetScorer c = false)
      ∧ (("lexstat" : String) ≠ "sca" →
          ((mainRun ⟨"lexstat", "upgma", none, false, false⟩ false []
              (fun _ => .ok [])).1.filter (fun c => isGetScorer c))
            = [.getScorer false 10000 (2, 1) 1]
          ∧ ∃ pre post,
              (mainRun ⟨"lexstat", "upgma", none, false, false⟩ false []
                  (fun _ => .ok [])).1
                = pre ++ .getScorer false 10000 (2, 1) 1 :: post
              ∧ (∀ c ∈ pre, isCluster c = false)
              ∧ ∃ c ∈ post, isCluster c = true)) :=
  ⟨rfl, scorer_training_spec ⟨"lexstat", "upgma", none, false, false⟩ false []
    (fun _ => .ok []) rfl⟩

/-! ### Claim C8: a failing diagnostic and the pipeline -/

/-- C8 (counterexample): the claim says a failure inside the bad-token
diagnostic never aborts the main pipeline.  The `json.dump(find_bad_tokens(
lexstat), ...)` call at lines 188–189 has no try/except, so a raising
classifier propagates: here the run ends in the classifier's exception and
no clustering call ever happens. -/
theorem diagnostic_failure_aborts :
    mainRun ⟨"sca", "upgma", none, false, true⟩ false [⟨"f1", "l", "c", ["a"]⟩]
        (fun _ => .error .raised)
      = ([.lexstatInit], .error .raised)
    ∧ ∀ c ∈ (mainRun ⟨"sca", "upgma", none, false, true⟩ false
        [⟨"f1", "l", "c", ["a"]⟩] (fun _ => .error .raised)).1,
        isCluster c = false := by
  refine ⟨rfl, ?_⟩
  intro c hc
  rcases List.mem_singleton.mp hc with rfl
  rfl

/-- C8 (amended): when the preflight passes, a run without
`--bad-tokens-log` completes whatever the classifier does; but when the
log is requested and the diagnostic raises, the exception propagates as
the run's outcome and the clustering, alignment and output steps never
run. -/
theorem diagnostic_failure_propagates (args : Args) (hasCT : Bool)
    (wl : List Form) (t2c : List String → Except PyErr (List String))
    (hpre : (hasCT && !args.overwrite) = false) :
    (args.badTokensLog = false → (mainRun args hasCT wl t2c).2 = .ok ())
    ∧ (∀ e : PyErr, args.badTokensLog = true →
        find_bad_tokens t2c (lexstatRows wl) = .error e →
        (mainRun args hasCT wl t2c).2 = .error e
        ∧ ∀ c ∈ (mainRun args hasCT wl t2c).1, isCluster c = false) := by
  constructor
  · intro hbt
    simp [mainRun, hpre, hbt]
  · intro e hbt hfb
    refine ⟨by simp [mainRun, hpre, hbt, hfb, Except.map], ?_⟩
    intro c hc
    simp only [mainRun, hpre, hbt, hfb, Except.map, Bool.false_eq_true, if_false,
      if_true] at hc
    rcases List.mem_singleton.mp (by simpa using hc) with rfl
    rfl

/-- C8 (witness): the amended theorem applied to a one-form dataset with a
raising classifier and `--bad-tokens-log` given, plus its log-free side on
the same inputs. -/
theorem diagnostic_failure_propagates_witness :
    ((false && !(false : Bool)) = false)
    ∧ (mainRun ⟨"sca", "upgma", none, false, true⟩ false
          [⟨"f1", "l", "c", ["a"]⟩] (fun _ => .error .raised)).2 = .error .raised
    ∧ ∀ c ∈ (mainRun ⟨"sca", "upgma", none, false, true⟩ false
          [⟨"f1", "l", "c", ["a"]⟩] (fun _ => .error .raised)).1,
        isCluster c = false :=
  ⟨rfl,
   ((diagnostic_failure_propagates ⟨"sca", "upgma", none, false, true⟩ false
      [⟨"f1", "l", "c", ["a"]⟩] (fun _ => .error .raised) rfl).2 .raised rfl rfl).1,
   ((diagnostic_failure_propagates ⟨"sca", "upgma", none, false, true⟩ false
      [⟨"f1", "l", "c", ["a"]⟩] (fun _ => .error .raised) rfl).2 .raised rfl rfl).2⟩

/-! ### Claim C7: the bad-tokens report -/

lemma lookup_map_update (d : BadDict) (k v t : String) :
    List.lookup t (d.map (fun p => if p.1 = k then (p.1, p.2 ++ [v]) else p))
      = if t = k then (List.lookup t d).map (· ++ [v]) else List.lookup t d := by
  induction d with
  | nil => by_cases h : t = k <;> simp [h]
  | cons p d ih =>
      obtain ⟨a, b⟩ := p
      by_cases hak : a = k
      · subst hak
        by_cases hta : t = a
        · subst hta
          simp [List.lookup_cons]
        · have hba : (t == a) = false := beq_eq_false_iff_ne.mpr hta
          simp [List.lookup_cons, hba, hta, ih]
      · by_cases hta : t = a
        · subst hta
          have : (t = k) = False := by simp [hak]
          simp [List.lookup_cons, hak, this]
        · have hba : (t == a) = false := beq_eq_false_iff_ne.mpr hta
          simp [List.lookup_cons, hak, hba, ih]

lemma lookup_dictAppend (d : BadDict) (k v t : String) :
    List.lookup t (dictAppend d k v)
      = if t = k then some ((List.lookup t d).getD [] ++ [v])
        else List.lookup t d := by
  unfold dictAppend
  by_cases hk : (List.lookup k d).isSome
  · rw [if_pos hk, lookup_map_update]
    by_cases htk : t = k
    · subst htk
      obtain ⟨l, hl⟩ := Option.isSome_iff_exists.mp hk
      simp [hl]
    · simp [htk]
  · rw [if_neg hk, List.lookup_append]
    by_cases htk : t = k
    · subst htk
      have hnone : List.lookup t d = none := by
        cases h : List.lookup t d with
        | none => rfl
        | some l => rw [h] at hk; simp at hk
      simp [hnone, List.lookup_cons]
    · have hba : (t == k) = false := beq_eq_false_iff_ne.mpr htk
      simp [htk, List.lookup_cons, hba]

/-- Specification-side: the fold of `find_bad_tokens` over a flat list of
(token, form-reference) occurrence pairs. -/
def recordPairs (classify : String → String) (ps : List (String × String))
    (d : BadDict) : BadDict :=
  ps.foldl (fun d p => if classify p.1 = "0" then dictAppend d p.1 p.2 else d) d

/-- Specification-side, next to `tokenOccurrences`: the references a pair
list contributes for token `t`. -/
def newRefs (classify : String → String) (ps : List (String × String))
    (t : String) : List String :=
  ps.filterMap (fun p => if p.1 = t ∧ classify p.1 = "0" then some p.2 else none)

lemma lookup_recordPairs (classify : String → String) :
    ∀ (ps : List (String × String)) (d : BadDict) (t : String),
      List.lookup t (recordPairs classify ps d)
        = match List.lookup t d with
          | some old => some (old ++ newRefs classify ps t)
          | none =>
              if newRefs classify ps t = [] then none
              else some (newRefs classify ps t) := by
  intro ps
  induction ps with
  | nil =>
      intro d t
      cases h : List.lookup t d <;> simp [recordPairs, newRefs, h]
  | cons p ps ih =>
      intro d t
      have hstep : recordPairs classify (p :: ps) d
          = recordPairs classify ps
              (if classify p.1 = "0" then dictAppend d p.1 p.2 else d) := by
        simp [recordPairs, List.foldl_cons]
      rw [hstep, ih]
      by_cases hc : classify p.1 = "0"
      · rw [if_pos hc]
        by_cases htp : p.1 = t
        · subst htp
          have hnew : newRefs classify (p :: ps) p.1
              = p.2 :: newRefs classify ps p.1 := by
            simp [newRefs, List.filterMap_cons, hc]
          rw [hnew, lookup_dictAppend, if_pos rfl]
          cases h : List.lookup p.1 d with
          | none => simp
          | some old => simp
        · have hnew : newRefs classify (p :: ps) t = newRefs classify ps t := by
            simp [newRefs, List.filterMap_cons, htp]
          rw [hnew, lookup_dictAppend, if_neg (fun h => htp h.symm)]
      · rw [if_neg hc]
        have hfalse : ¬(p.1 = t ∧ classify p.1 = "0") := fun h => hc h.2
        have hnew : newRefs classify (p :: ps) t = newRefs classify ps t := by
          simp [newRefs, List.filterMap_cons, if_neg hfalse]
        rw [hnew]

lemma zip_map_self {α β : Type _} (f : α → β) (l : List α) :
    l.zip (l.map f) = l.map (fun x => (x, f x)) := by
  have := List.zip_map' (id : α → α) f l
  simpa using this

lemma fbtRow_eq_recordPairs (classify : String → String) (d : BadDict)
    (toks : List String) (ref : String) :
    fbtRow d toks (toks.map classify) ref
      = recordPairs classify (toks.map (fun tok => (tok, ref))) d := by
  unfold fbtRow recordPairs
  rw [zip_map_self, List.foldl_map, List.foldl_map]

lemma find_bad_tokens_pure (classify : String → String) :
    ∀ (rows : List WRow) (d : BadDict),
      rows.foldl (fbtStep (fun s => Except.ok (s.map classify))) (Except.ok d)
        = Except.ok (recordPairs classify (pairsOf rows) d) := by
  intro rows
  induction rows with
  | nil => intro d; simp [pairsOf, recordPairs]
  | cons row rows ih =>
      intro d
      rw [List.foldl_cons]
      show rows.foldl _
          (Except.ok (fbtRow d row.tokens (row.tokens.map classify) row.ref)) = _
      rw [ih, fbtRow_eq_recordPairs]
      have : pairsOf (row :: rows)
          = row.tokens.map (fun tok => (tok, row.ref)) ++ pairsOf rows := by
        simp [pairsOf]
      rw [this]
      unfold recordPairs
      rw [List.foldl_append]

/-- C7: for every wordlist and per-token classifier, `find_bad_tokens`
returns a report whose keys are exactly the tokens that occur classified
into the invalid class `"0"`, and whose value for such a token is the list
of form references, one per occurrence of the token in scan order —
repeats across forms and within one form's token sequence included, no
deduplication. -/
theorem find_bad_tokens_report (classify : String → String) (rows : List WRow)
    (t : String) :
    ∃ d, find_bad_tokens (fun s => .ok (s.map classify)) rows = .ok d
      ∧ List.lookup t d
          = (if tokenOccurrences classify rows t = [] then none
             else some (tokenOccurrences classify rows t)) := by
  refine ⟨recordPairs classify (pairsOf rows) [], ?_, ?_⟩
  · unfold find_bad_tokens
    exact find_bad_tokens_pure classify rows []
  · rw [lookup_recordPairs]
    have : newRefs classify (pairsOf rows) t = tokenOccurrences classify rows t := rfl
    simp [this, List.lookup]

/-! ### Claim C10: `cognatetable_from_lingpy` and its ignored parameter -/

/-- C10: `cognatetable_from_lingpy` never reads its `lingpy` parameter:
its result is the same for any two arguments whenever the ambient
module-level `lexstat` variable (and the `column` argument) is the same,
and when no such ambient variable exists the call raises `NameError`
instead of falling back to the argument. -/
theorem cognatetable_ignores_argument (g : Option LexStatState)
    (a b : LexStatState) (col : String) :
    cognatetable_from_lingpy g a col = cognatetable_from_lingpy g b col
    ∧ ∀ (x : LexStatState) (c : String),
        cognatetable_from_lingpy none x c = .error (.nameError "lexstat") := by
  constructor
  · cases g <;> rfl
  · intro x c
    rfl

end LingpyCldf
